import Mathlib

/-!
# WalkerBrain: sector obstacle test and motion policy

A shallow embedding of `src/src/walker.cpp` (class `WalkerBrain` and the
timer callback `Walker::walk`), followed by theorems about it.

Conventions of the embedding

* A C++ `float`/`double` value is a `Fp`: a finite value (a rational; every
  finite IEEE value is one, and `-0.0` and `+0.0` compare equal so both are
  `fin 0`), one of the two infinities, or NaN. The program only copies and
  compares such values, and IEEE comparison is exact, so no rounding is
  involved. The promotion of a `float` sample to `double` is exact as well.
* `scan.ranges` is a `List Fp`. `std::vector::operator[]` is unchecked: with an
  index beyond the size the C++ call has undefined behaviour and goes on with
  whatever the memory there holds. The embedding does not describe that
  continuation: it stops at the first such read with `Outcome.readPastEnd i`,
  which marks where the described behaviour ends and is not a result the
  program returns. No theorem below draws a conclusion about the program from
  that outcome.
* Methods are written in state-passing style; log output is not modelled.
-/

namespace Walker

/-- Values of the C++ types `float` and `double`. -/
inductive Fp where
  | nan : Fp
  | negInf : Fp
  | fin (q : ℚ) : Fp
  | posInf : Fp
  deriving DecidableEq

namespace Fp

/-- The C++ comparison `a <= b` on floating-point values. -/
def le : Fp → Fp → Bool
  | nan, _ => false
  | _, nan => false
  | negInf, _ => true
  | _, posInf => true
  | fin a, fin b => decide (a ≤ b)
  | fin _, negInf => false
  | posInf, fin _ => false
  | posInf, negInf => false

/-- The C++ comparison `a > b` on floating-point values. -/
def gt : Fp → Fp → Bool
  | nan, _ => false
  | _, nan => false
  | posInf, posInf => false
  | posInf, _ => true
  | negInf, _ => false
  | fin a, fin b => decide (b < a)
  | fin _, negInf => true
  | fin _, posInf => false

/-- The value `0.0`. -/
def zero : Fp := fin 0

/-- The `double` nearest to the literal `.1` (`0x3FB999999999999A`). -/
def lit_0_1 : Fp := fin (3602879701896397 / 36028797018963968)

end Fp

/-- The message type `geometry_msgs::msg::Vector3` (three `double`s). -/
structure Vector3 where
  x : Fp
  y : Fp
  z : Fp
  deriving DecidableEq

/-- The message type `geometry_msgs::msg::Twist`. -/
structure Twist where
  linear : Vector3
  angular : Vector3
  deriving DecidableEq

/-- The value of `geometry_msgs::msg::Twist()`: the generated message
constructor sets every field to zero. -/
def Twist.fresh : Twist :=
  { linear := ⟨Fp.zero, Fp.zero, Fp.zero⟩, angular := ⟨Fp.zero, Fp.zero, Fp.zero⟩ }

/-- The data members of `class WalkerBrain` (the logger apart). -/
structure WalkerBrain where
  angle : Fp
  speed : Fp
  dist_thresh : Fp
  front_view : Nat × Nat
  obstacle_in_front_ : Bool
  deriving DecidableEq

/-- How the embedding of a call that reads the scan can end. `ok a`: the call
returns with `a`, every read having been inside the vector. `readPastEnd i`:
the call reads `ranges[i]` with `i` beyond the end of the vector; from there
on the C++ behaviour is undefined and the embedding says nothing about it
(the program has no error result of this kind). `outOfFuel` belongs to the
embedding only: a loop used up its fuel. -/
inductive Outcome (α : Type) where
  | ok (a : α) : Outcome α
  | readPastEnd (i : Nat) : Outcome α
  | outOfFuel : Outcome α
  deriving DecidableEq

namespace WalkerBrain

/-- The constructor `WalkerBrain()`. The members `angle`, `speed`, `dist_thresh` and
`front_view` take their default member initialisers. `obstacle_in_front_`
has no initialiser and the constructor body is empty, so the member starts
with whatever its storage holds: that value is the argument `stale`. -/
def new (stale : Bool) : WalkerBrain :=
  { angle := Fp.lit_0_1
    speed := Fp.lit_0_1
    dist_thresh := Fp.fin 1
    front_view := (20, 340)
    obstacle_in_front_ := stale }

/-- The constructor `WalkerBrain(double speed, double angle)`: the default member
initialisers, then the two assignments of the body. `obstacle_in_front_`
is not assigned here either (see `new`). -/
def new2 (stale : Bool) (speed angle : Fp) : WalkerBrain :=
  { new stale with speed := speed, angle := angle }

/-- The method `turn`: `motion.angular.z = angle`. -/
def turn (b : WalkerBrain) (motion : Twist) : WalkerBrain × Twist :=
  (b, { motion with angular := { motion.angular with z := b.angle } })

/-- The method `move_forward`: `motion.linear.x = speed`. -/
def move_forward (b : WalkerBrain) (motion : Twist) : WalkerBrain × Twist :=
  (b, { motion with linear := { motion.linear with x := b.speed } })

/-- The first loop of `check_obstacle`,
`for (int i = 0; i < front_view[0]; i++)`, entered at index `i`.
The result `ok true` stands for the early `return` inside the loop,
`ok false` for leaving the loop through its guard. `fuel` bounds the number
of guard evaluations. -/
def lowLoop (b : WalkerBrain) (ranges : List Fp) : Nat → Nat → Outcome Bool
  | 0, _ => .outOfFuel
  | fuel + 1, i =>
    if i < b.front_view.1 then
      match ranges[i]? with
      | none => .readPastEnd i
      | some r =>
        if r.le b.dist_thresh then .ok true
        else lowLoop b ranges fuel (i + 1)
    else .ok false

/-- The second loop of `check_obstacle`,
`for (int i = 358; i > front_view[1]; i--)`, entered at index `i`. -/
def highLoop (b : WalkerBrain) (ranges : List Fp) : Nat → Nat → Outcome Bool
  | 0, _ => .outOfFuel
  | fuel + 1, i =>
    if i > b.front_view.2 then
      match ranges[i]? with
      | none => .readPastEnd i
      | some r =>
        if r.le b.dist_thresh then .ok true
        else highLoop b ranges fuel (i - 1)
    else .ok false

/-- The method `check_obstacle`. Each loop gets one unit of fuel per guard
evaluation it can make: `front_view[0] + 1` for the first loop and
`358 - front_view[1] + 1` for the second. -/
def check_obstacle (b : WalkerBrain) (ranges : List Fp) : Outcome WalkerBrain :=
  match lowLoop b ranges (b.front_view.1 + 1) 0 with
  | .outOfFuel => .outOfFuel
  | .readPastEnd i => .readPastEnd i
  | .ok true => .ok { b with obstacle_in_front_ := true }
  | .ok false =>
    match highLoop b ranges (358 - b.front_view.2 + 1) 358 with
    | .outOfFuel => .outOfFuel
    | .readPastEnd i => .readPastEnd i
    | .ok true => .ok { b with obstacle_in_front_ := true }
    | .ok false => .ok { b with obstacle_in_front_ := false }

/-- The method `move`. -/
def move (b : WalkerBrain) (motion : Twist) : WalkerBrain × Twist :=
  if b.obstacle_in_front_ then b.turn motion else b.move_forward motion

end WalkerBrain

/-- The timer callback `Walker::walk`, as far as the command goes: a fresh `Twist` is
handed to `brain.move` and then published. The result is the brain and the
published message. -/
def walk (brain : WalkerBrain) : WalkerBrain × Twist :=
  brain.move Twist.fresh

/-- Whether sample `j` of the scan exists and compares `<= dist_thresh`. -/
def near (b : WalkerBrain) (ranges : List Fp) (j : Nat) : Bool :=
  match ranges[j]? with
  | some r => r.le b.dist_thresh
  | none => false

/-- The configuration every constructed `WalkerBrain` has: no method assigns
`dist_thresh` or `front_view`, so they keep their initialisers `1` and
`{20, 340}`. -/
def builtin (b : WalkerBrain) : Prop :=
  b.dist_thresh = Fp.fin 1 ∧ b.front_view = (20, 340)

instance (b : WalkerBrain) : Decidable (builtin b) := by
  unfold builtin
  infer_instance

/-- A scan with the value `v` at index `k` and `5.0` at the other indices
below `n`. -/
def spike (n k : Nat) (v : Fp) : List Fp :=
  (List.replicate n (Fp.fin 5)).set k v

/-! ## The two loops -/

theorem near_lt_length {b : WalkerBrain} {ranges : List Fp} {j : Nat}
    (h : near b ranges j = true) : j < ranges.length := by
  by_contra hlen
  have hnone : ranges[j]? = none := List.getElem?_eq_none (Nat.le_of_not_lt hlen)
  simp [near, hnone] at h

theorem near_of_getElem? {b : WalkerBrain} {ranges : List Fp} {j : Nat} {r : Fp}
    (h : ranges[j]? = some r) : near b ranges j = r.le b.dist_thresh := by
  simp [near, h]

theorem lowLoop_hit (b : WalkerBrain) (ranges : List Fp) (j : Nat)
    (hj : j < b.front_view.1) (hn : near b ranges j = true) :
    ∀ fuel i, i ≤ j → b.front_view.1 - i < fuel →
      WalkerBrain.lowLoop b ranges fuel i = .ok true := by
  intro fuel
  induction fuel with
  | zero => intro i _ hf; omega
  | succ n ih =>
    intro i hij hf
    have hi : i < b.front_view.1 := by omega
    have hlen := near_lt_length hn
    have hsome : ranges[i]? = some ranges[i] :=
      List.getElem?_eq_getElem (by omega)
    simp only [WalkerBrain.lowLoop, hi, if_true, hsome]
    by_cases hle : (ranges[i]).le b.dist_thresh = true
    · simp [hle]
    · have hne : i ≠ j := by
        intro e
        subst e
        rw [near_of_getElem? hsome] at hn
        exact hle hn
      simp only [hle]
      exact ih (i + 1) (by omega) (by omega)

theorem lowLoop_miss (b : WalkerBrain) (ranges : List Fp)
    (hlen : b.front_view.1 ≤ ranges.length) :
    ∀ fuel i, (∀ j, i ≤ j → j < b.front_view.1 → near b ranges j = false) →
      b.front_view.1 - i < fuel →
      WalkerBrain.lowLoop b ranges fuel i = .ok false := by
  intro fuel
  induction fuel with
  | zero => intro i _ hf; omega
  | succ n ih =>
    intro i hno hf
    by_cases hi : i < b.front_view.1
    · have hsome : ranges[i]? = some ranges[i] :=
        List.getElem?_eq_getElem (by omega)
      have hle : (ranges[i]).le b.dist_thresh = false := by
        rw [← near_of_getElem? hsome]
        exact hno i (Nat.le_refl i) hi
      simp only [WalkerBrain.lowLoop, hi, if_true, hsome, hle]
      exact ih (i + 1) (fun j h1 h2 => hno j (by omega) h2) (by omega)
    · simp [WalkerBrain.lowLoop, hi]

theorem highLoop_hit (b : WalkerBrain) (ranges : List Fp) (j : Nat)
    (hj : b.front_view.2 < j) (hn : near b ranges j = true) :
    ∀ fuel i, j ≤ i → i < ranges.length → i - b.front_view.2 < fuel →
      WalkerBrain.highLoop b ranges fuel i = .ok true := by
  intro fuel
  induction fuel with
  | zero => intro i _ _ hf; omega
  | succ n ih =>
    intro i hji hil hf
    have hi : i > b.front_view.2 := by omega
    have hsome : ranges[i]? = some ranges[i] := List.getElem?_eq_getElem hil
    simp only [WalkerBrain.highLoop, hi, if_true, hsome]
    by_cases hle : (ranges[i]).le b.dist_thresh = true
    · simp [hle]
    · have hne : i ≠ j := by
        intro e
        subst e
        rw [near_of_getElem? hsome] at hn
        exact hle hn
      simp only [hle]
      exact ih (i - 1) (by omega) (by omega) (by omega)

theorem highLoop_miss (b : WalkerBrain) (ranges : List Fp) :
    ∀ fuel i, (∀ j, b.front_view.2 < j → j ≤ i → near b ranges j = false) →
      i < ranges.length → i - b.front_view.2 < fuel →
      WalkerBrain.highLoop b ranges fuel i = .ok false := by
  intro fuel
  induction fuel with
  | zero => intro i _ _ hf; omega
  | succ n ih =>
    intro i hno hil hf
    by_cases hi : i > b.front_view.2
    · have hsome : ranges[i]? = some ranges[i] := List.getElem?_eq_getElem hil
      have hle : (ranges[i]).le b.dist_thresh = false := by
        rw [← near_of_getElem? hsome]
        exact hno i hi (Nat.le_refl i)
      simp only [WalkerBrain.highLoop, hi, if_true, hsome, hle]
      exact ih (i - 1) (fun j h1 h2 => hno j h1 (by omega)) (by omega) (by omega)
    · simp [WalkerBrain.highLoop, hi]

theorem lowLoop_fuel (b : WalkerBrain) (ranges : List Fp) :
    ∀ fuel i, b.front_view.1 - i < fuel →
      WalkerBrain.lowLoop b ranges fuel i ≠ .outOfFuel := by
  intro fuel
  induction fuel with
  | zero => intro i hf; omega
  | succ n ih =>
    intro i hf
    simp only [WalkerBrain.lowLoop]
    split
    · split
      · simp
      · split
        · simp
        · exact ih (i + 1) (by omega)
    · simp

theorem highLoop_fuel (b : WalkerBrain) (ranges : List Fp) :
    ∀ fuel i, i - b.front_view.2 < fuel →
      WalkerBrain.highLoop b ranges fuel i ≠ .outOfFuel := by
  intro fuel
  induction fuel with
  | zero => intro i hf; omega
  | succ n ih =>
    intro i hf
    simp only [WalkerBrain.highLoop]
    split
    · split
      · simp
      · split
        · simp
        · exact ih (i - 1) (by omega)
    · simp

/-- The fuel handed to the two loops is enough for every state and scan. -/
theorem check_obstacle_fuel (b : WalkerBrain) (ranges : List Fp) :
    b.check_obstacle ranges ≠ .outOfFuel := by
  have h1 := lowLoop_fuel b ranges (b.front_view.1 + 1) 0 (by omega)
  have h2 := highLoop_fuel b ranges (358 - b.front_view.2 + 1) 358 (by omega)
  unfold WalkerBrain.check_obstacle
  split
  · contradiction
  · simp
  · simp
  · split
    · contradiction
    · simp
    · simp
    · simp

/-- A returning `check_obstacle` changes nothing but the flag. -/
theorem check_obstacle_frame (b c : WalkerBrain) (ranges : List Fp)
    (h : b.check_obstacle ranges = .ok c) :
    c = { b with obstacle_in_front_ := c.obstacle_in_front_ } := by
  unfold WalkerBrain.check_obstacle at h
  split at h
  · cases h
  · cases h
  · cases h; rfl
  · split at h
    · cases h
    · cases h
    · cases h; rfl
    · cases h; rfl

/-- Both constructors give the built-in configuration, and `check_obstacle` and `move`
keep it: every state the program reaches satisfies `builtin`. -/
theorem builtin_reachable (b : WalkerBrain) (hb : builtin b) :
    (∀ stale, builtin (WalkerBrain.new stale)) ∧
    (∀ stale s a, builtin (WalkerBrain.new2 stale s a)) ∧
    (∀ ranges c, b.check_obstacle ranges = .ok c → builtin c) ∧
    (∀ m, builtin (b.move m).1) := by
  refine ⟨fun _ => ⟨rfl, rfl⟩, fun _ _ _ => ⟨rfl, rfl⟩, ?_, ?_⟩
  · intro ranges c h
    rw [check_obstacle_frame b c ranges h]
    exact hb
  · intro m
    cases h : b.obstacle_in_front_ <;>
      simpa [WalkerBrain.move, WalkerBrain.turn, WalkerBrain.move_forward, h] using hb

/-! ## `check_obstacle` under the built-in sector bounds -/

theorem check_hit_low (b : WalkerBrain) (ranges : List Fp) (j : Nat)
    (hfv : b.front_view = (20, 340)) (hj : j < 20) (hn : near b ranges j = true) :
    b.check_obstacle ranges = .ok { b with obstacle_in_front_ := true } := by
  have h := lowLoop_hit b ranges j (by rw [hfv]; exact hj) hn
    (b.front_view.1 + 1) 0 (Nat.zero_le j) (by omega)
  simp only [WalkerBrain.check_obstacle, h]

theorem check_hit_high (b : WalkerBrain) (ranges : List Fp) (j : Nat)
    (hfv : b.front_view = (20, 340)) (hlen : 359 ≤ ranges.length)
    (hj : 340 < j ∧ j ≤ 358) (hn : near b ranges j = true) :
    b.check_obstacle ranges = .ok { b with obstacle_in_front_ := true } := by
  by_cases hlow : ∃ k, k < 20 ∧ near b ranges k = true
  · obtain ⟨k, hk, hnk⟩ := hlow
    exact check_hit_low b ranges k hfv hk hnk
  · have hno : ∀ k, 0 ≤ k → k < b.front_view.1 → near b ranges k = false := by
      intro k _ hk
      rw [hfv] at hk
      cases hc : near b ranges k with
      | false => rfl
      | true => exact absurd ⟨k, hk, hc⟩ hlow
    have h1 := lowLoop_miss b ranges (by rw [hfv]; show 20 ≤ ranges.length; omega)
      (b.front_view.1 + 1) 0 hno (by omega)
    have h2 := highLoop_hit b ranges j (by rw [hfv]; exact hj.1) hn
      (358 - b.front_view.2 + 1) 358 hj.2 (by omega) (by omega)
    simp only [WalkerBrain.check_obstacle, h1, h2]

theorem check_miss (b : WalkerBrain) (ranges : List Fp)
    (hfv : b.front_view = (20, 340)) (hlen : 359 ≤ ranges.length)
    (hno : ∀ j, (j < 20 ∨ (340 < j ∧ j ≤ 358)) → near b ranges j = false) :
    b.check_obstacle ranges = .ok { b with obstacle_in_front_ := false } := by
  have h1 := lowLoop_miss b ranges (by rw [hfv]; show 20 ≤ ranges.length; omega)
    (b.front_view.1 + 1) 0
    (fun k _ hk => hno k (Or.inl (by rw [hfv] at hk; exact hk))) (by omega)
  have h2 := highLoop_miss b ranges (358 - b.front_view.2 + 1) 358
    (fun k hk1 hk2 => hno k (Or.inr ⟨by rw [hfv] at hk1; exact hk1, hk2⟩))
    (by omega) (by omega)
  simp only [WalkerBrain.check_obstacle, h1, h2]

theorem near_set_ne (b : WalkerBrain) (ranges : List Fp) (k j : Nat) (x : Fp)
    (h : k ≠ j) : near b (ranges.set k x) j = near b ranges j := by
  simp [near, List.getElem?_set_ne h]

theorem le_false_of_gt {r t : Fp} (h : r.gt t = true) : r.le t = false := by
  cases r <;> cases t <;> simp_all [Fp.gt, Fp.le]

theorem near_congr {b c : WalkerBrain} (h : b.dist_thresh = c.dist_thresh)
    (ranges : List Fp) (j : Nat) : near b ranges j = near c ranges j := by
  simp [near, h]

theorem check_total (b : WalkerBrain) (ranges : List Fp)
    (hfv : b.front_view = (20, 340)) (hlen : 359 ≤ ranges.length) :
    ∃ f : Bool, b.check_obstacle ranges = .ok { b with obstacle_in_front_ := f } ∧
      (f = true ↔ ∃ j, (j < 20 ∨ (340 < j ∧ j ≤ 358)) ∧ near b ranges j = true) := by
  by_cases hex : ∃ j, (j < 20 ∨ (340 < j ∧ j ≤ 358)) ∧ near b ranges j = true
  · refine ⟨true, ?_, by simp [hex]⟩
    obtain ⟨j, hj, hn⟩ := hex
    rcases hj with h | h
    · exact check_hit_low b ranges j hfv h hn
    · exact check_hit_high b ranges j hfv hlen h hn
  · refine ⟨false, ?_, by simp [hex]⟩
    apply check_miss b ranges hfv hlen
    intro j hj
    cases hc : near b ranges j with
    | false => rfl
    | true => exact absurd ⟨j, hj, hc⟩ hex

theorem check_eq_of_near_eq (b : WalkerBrain) (r1 r2 : List Fp)
    (hfv : b.front_view = (20, 340)) (h1 : 359 ≤ r1.length) (h2 : 359 ≤ r2.length)
    (h : ∀ j, (j < 20 ∨ (340 < j ∧ j ≤ 358)) → near b r1 j = near b r2 j) :
    b.check_obstacle r1 = b.check_obstacle r2 := by
  obtain ⟨f1, e1, i1⟩ := check_total b r1 hfv h1
  obtain ⟨f2, e2, i2⟩ := check_total b r2 hfv h2
  have hiff : f1 = true ↔ f2 = true := by
    rw [i1, i2]
    constructor
    · rintro ⟨j, hj, hn⟩
      exact ⟨j, hj, by rw [← h j hj]; exact hn⟩
    · rintro ⟨j, hj, hn⟩
      exact ⟨j, hj, by rw [h j hj]; exact hn⟩
  have hf : f1 = f2 := Bool.eq_iff_iff.mpr hiff
  rw [e1, e2, hf]

theorem walk_eq (b : WalkerBrain) :
    walk b = (b,
      if b.obstacle_in_front_ = true then
        { linear := ⟨Fp.zero, Fp.zero, Fp.zero⟩, angular := ⟨Fp.zero, Fp.zero, b.angle⟩ }
      else
        { linear := ⟨b.speed, Fp.zero, Fp.zero⟩, angular := ⟨Fp.zero, Fp.zero, Fp.zero⟩ }) := by
  cases h : b.obstacle_in_front_ <;>
    simp [walk, WalkerBrain.move, WalkerBrain.turn, WalkerBrain.move_forward,
      Twist.fresh, h]

/-! ## The sector test -/

/-- C1, as stated, fails: a scan of 360 samples whose only sample at or below
the threshold sits at index 340, or at index 359, has a qualifying sample
inside [340,360), yet `check_obstacle` sets the flag to false. -/
theorem check_obstacle_misses_340_and_359 :
    (spike 360 340 (Fp.fin (1/2))).length = 360 ∧
    near (WalkerBrain.new true) (spike 360 340 (Fp.fin (1/2))) 340 = true ∧
    (WalkerBrain.new true).check_obstacle (spike 360 340 (Fp.fin (1/2)))
      = .ok (WalkerBrain.new false) ∧
    (spike 360 359 (Fp.fin (1/2))).length = 360 ∧
    near (WalkerBrain.new true) (spike 360 359 (Fp.fin (1/2))) 359 = true ∧
    (WalkerBrain.new true).check_obstacle (spike 360 359 (Fp.fin (1/2)))
      = .ok (WalkerBrain.new false) := by
  decide!

/-- C1, amended: with the built-in configuration, a scan of 360 samples that
has a sample less than or equal to the threshold at an index in [0,20) or
at an index from 341 to 358 makes `check_obstacle` set the flag to true; a
sample exactly equal to the threshold counts. -/
theorem check_obstacle_true_in_arcs (b : WalkerBrain) (ranges : List Fp)
    (hb : builtin b) (hlen : ranges.length = 360) (j : Nat)
    (hj : j < 20 ∨ (341 ≤ j ∧ j ≤ 358)) :
    (∀ r, ranges[j]? = some r → r.le (Fp.fin 1) = true →
      b.check_obstacle ranges = .ok { b with obstacle_in_front_ := true }) ∧
    (ranges[j]? = some (Fp.fin 1) →
      b.check_obstacle ranges = .ok { b with obstacle_in_front_ := true }) := by
  have key : ∀ r, ranges[j]? = some r → r.le (Fp.fin 1) = true →
      b.check_obstacle ranges = .ok { b with obstacle_in_front_ := true } := by
    intro r hr hle
    have hn : near b ranges j = true := by
      rw [near_of_getElem? hr, hb.1]; exact hle
    rcases hj with h | h
    · exact check_hit_low b ranges j hb.2 h hn
    · exact check_hit_high b ranges j hb.2 (by omega) ⟨by omega, h.2⟩ hn
  exact ⟨key, fun h => key _ h (by simp [Fp.le])⟩

/-- Witness for `check_obstacle_true_in_arcs`: sample 350 equal to the threshold. -/
theorem check_obstacle_true_in_arcs_witness :
    (WalkerBrain.new false).check_obstacle (spike 360 350 (Fp.fin 1))
      = .ok (WalkerBrain.new true) :=
  (check_obstacle_true_in_arcs (WalkerBrain.new false) (spike 360 350 (Fp.fin 1))
    ⟨rfl, rfl⟩ (by decide!) 350 (Or.inr ⟨by decide, by decide⟩)).2 (by decide!)

/-- C2: with the built-in configuration, a scan of 360 samples with no sample
less than or equal to the threshold at an index in [0,20) or [340,360)
makes `check_obstacle` set the flag to false, whatever the samples at
indices 20..339 are; so does a scan whose samples are all greater than the
threshold. -/
theorem check_obstacle_false_outside_arcs (b : WalkerBrain) (ranges : List Fp)
    (hb : builtin b) (hlen : ranges.length = 360) :
    ((∀ (j : Nat) (r : Fp), (j < 20 ∨ (340 ≤ j ∧ j < 360)) → ranges[j]? = some r →
        r.le (Fp.fin 1) = false) →
      b.check_obstacle ranges = .ok { b with obstacle_in_front_ := false }) ∧
    ((∀ (j : Nat) (r : Fp), ranges[j]? = some r → r.gt (Fp.fin 1) = true) →
      b.check_obstacle ranges = .ok { b with obstacle_in_front_ := false }) := by
  have key : (∀ (j : Nat) (r : Fp), (j < 20 ∨ (340 ≤ j ∧ j < 360)) → ranges[j]? = some r →
        r.le (Fp.fin 1) = false) →
      b.check_obstacle ranges = .ok { b with obstacle_in_front_ := false } := by
    intro h
    apply check_miss b ranges hb.2 (by omega)
    intro j hj
    have hjl : j < ranges.length := by omega
    have hsome : ranges[j]? = some ranges[j] := List.getElem?_eq_getElem hjl
    rw [near_of_getElem? hsome, hb.1]
    exact h j _ (by omega) hsome
  exact ⟨key, fun h => key (fun j r _ hr => le_false_of_gt (h j r hr))⟩

/-- Witness for `check_obstacle_false_outside_arcs`: a sample of 0.125 at index 180 and
5.0 elsewhere, and a scan of 5.0 throughout. -/
theorem check_obstacle_false_outside_arcs_witness :
    (WalkerBrain.new true).check_obstacle (spike 360 180 (Fp.fin (1/8)))
      = .ok (WalkerBrain.new false) ∧
    (WalkerBrain.new true).check_obstacle (List.replicate 360 (Fp.fin 5))
      = .ok (WalkerBrain.new false) := by
  constructor
  · refine (check_obstacle_false_outside_arcs (WalkerBrain.new true)
      (spike 360 180 (Fp.fin (1/8))) ⟨rfl, rfl⟩ (by decide!)).1 ?_
    intro j r hj hr
    have hne : 180 ≠ j := by omega
    rw [spike, List.getElem?_set_ne hne, List.getElem?_replicate] at hr
    split at hr
    · cases hr; decide!
    · cases hr
  · refine (check_obstacle_false_outside_arcs (WalkerBrain.new true)
      (List.replicate 360 (Fp.fin 5)) ⟨rfl, rfl⟩ (by decide!)).2 ?_
    intro j r hr
    rw [List.getElem?_replicate] at hr
    split at hr
    · cases hr; decide!
    · cases hr

/-- C9: with the built-in configuration and a scan of 360 samples,
`check_obstacle` returns with the flag set to `f`, where `f` is true exactly when
some index `i` with `0 <= i <= 19` or `341 <= i <= 358` has
`ranges[i] <= 1.0`; replacing the samples at indices 340 and 359 by any
values does not change the result, and a scan with no sample at or below the
threshold apart from indices 340 and 359 gives the flag false. -/
theorem check_obstacle_examines_0_19_and_341_358 (b : WalkerBrain) (ranges : List Fp)
    (hb : builtin b) (hlen : ranges.length = 360) :
    ∃ f : Bool, b.check_obstacle ranges = .ok { b with obstacle_in_front_ := f } ∧
      (f = true ↔ ∃ (i : Nat) (r : Fp), (i ≤ 19 ∨ (341 ≤ i ∧ i ≤ 358)) ∧
        ranges[i]? = some r ∧ r.le (Fp.fin 1) = true) ∧
      (∀ x y : Fp,
        b.check_obstacle ((ranges.set 340 x).set 359 y) = b.check_obstacle ranges) ∧
      ((∀ (i : Nat) (r : Fp), i ≠ 340 → i ≠ 359 → ranges[i]? = some r →
          r.le (Fp.fin 1) = false) → f = false) := by
  obtain ⟨f, hf, hiff⟩ := check_total b ranges hb.2 (by omega)
  have hiff2 : f = true ↔ ∃ (i : Nat) (r : Fp), (i ≤ 19 ∨ (341 ≤ i ∧ i ≤ 358)) ∧
      ranges[i]? = some r ∧ r.le (Fp.fin 1) = true := by
    rw [hiff]
    constructor
    · rintro ⟨j, hj, hn⟩
      have hjl : j < ranges.length := near_lt_length hn
      have hsome : ranges[j]? = some ranges[j] := List.getElem?_eq_getElem hjl
      rw [near_of_getElem? hsome, hb.1] at hn
      exact ⟨j, ranges[j], by omega, hsome, hn⟩
    · rintro ⟨i, r, hi, hr, hle⟩
      exact ⟨i, by omega, by rw [near_of_getElem? hr, hb.1]; exact hle⟩
  refine ⟨f, hf, hiff2, ?_, ?_⟩
  · intro x y
    apply check_eq_of_near_eq b _ _ hb.2 (by simp; omega) (by omega)
    intro j hj
    rw [near_set_ne b _ 359 j y (by omega), near_set_ne b _ 340 j x (by omega)]
  · intro hno
    cases hc : f with
    | false => rfl
    | true =>
      obtain ⟨i, r, hi, hr, hle⟩ := hiff2.mp hc
      have := hno i r (by omega) (by omega) hr
      rw [this] at hle
      cases hle

/-- Witness for `check_obstacle_examines_0_19_and_341_358`: a scan of 5.0 throughout. -/
theorem check_obstacle_examines_0_19_and_341_358_witness :
    ∃ f : Bool, (WalkerBrain.new true).check_obstacle (List.replicate 360 (Fp.fin 5))
        = .ok { WalkerBrain.new true with obstacle_in_front_ := f } ∧
      (f = true ↔ ∃ (i : Nat) (r : Fp), (i ≤ 19 ∨ (341 ≤ i ∧ i ≤ 358)) ∧
        (List.replicate 360 (Fp.fin 5))[i]? = some r ∧ r.le (Fp.fin 1) = true) ∧
      (∀ x y : Fp,
        (WalkerBrain.new true).check_obstacle
            (((List.replicate 360 (Fp.fin 5)).set 340 x).set 359 y)
          = (WalkerBrain.new true).check_obstacle (List.replicate 360 (Fp.fin 5))) ∧
      ((∀ (i : Nat) (r : Fp), i ≠ 340 → i ≠ 359 →
          (List.replicate 360 (Fp.fin 5))[i]? = some r →
          r.le (Fp.fin 1) = false) → f = false) :=
  check_obstacle_examines_0_19_and_341_358 (WalkerBrain.new true)
    (List.replicate 360 (Fp.fin 5)) ⟨rfl, rfl⟩ (by decide!)

/-- C8: for a scan of 360 samples there is one flag value `f`, fixed by the
scan, such that from every controller state with the built-in configuration
`check_obstacle` returns with the flag equal to `f` (whatever the flag was
before), and a second call with the same scan returns the same state. -/
theorem check_obstacle_flag_from_scan_alone (ranges : List Fp)
    (hlen : ranges.length = 360) :
    ∃ f : Bool, ∀ b : WalkerBrain, builtin b →
      b.check_obstacle ranges = .ok { b with obstacle_in_front_ := f } ∧
      ({ b with obstacle_in_front_ := f } : WalkerBrain).check_obstacle ranges
        = .ok { b with obstacle_in_front_ := f } := by
  obtain ⟨f, -, hiff⟩ := check_total (WalkerBrain.new false) ranges rfl (by omega)
  refine ⟨f, ?_⟩
  have main : ∀ c : WalkerBrain, builtin c →
      c.check_obstacle ranges = .ok { c with obstacle_in_front_ := f } := by
    intro c hc
    obtain ⟨g, hg, hgiff⟩ := check_total c ranges hc.2 (by omega)
    have hdt : c.dist_thresh = (WalkerBrain.new false).dist_thresh := hc.1
    have hfg : g = f := by
      apply Bool.eq_iff_iff.mpr
      rw [hgiff, hiff]
      constructor
      · rintro ⟨j, hj, hn⟩
        exact ⟨j, hj, by rw [← near_congr hdt]; exact hn⟩
      · rintro ⟨j, hj, hn⟩
        exact ⟨j, hj, by rw [near_congr hdt]; exact hn⟩
    rw [hg, hfg]
  intro b hb
  exact ⟨main b hb, main { b with obstacle_in_front_ := f } hb⟩

/-- Witness for `check_obstacle_flag_from_scan_alone`: a scan with 0.5 at index 5, from
the two states of a default-constructed brain. -/
theorem check_obstacle_flag_from_scan_alone_witness :
    ∃ f : Bool,
      (WalkerBrain.new false).check_obstacle (spike 360 5 (Fp.fin (1/2)))
        = .ok (WalkerBrain.new f) ∧
      (WalkerBrain.new true).check_obstacle (spike 360 5 (Fp.fin (1/2)))
        = .ok (WalkerBrain.new f) ∧
      (WalkerBrain.new f).check_obstacle (spike 360 5 (Fp.fin (1/2)))
        = .ok (WalkerBrain.new f) :=
  match check_obstacle_flag_from_scan_alone (spike 360 5 (Fp.fin (1/2))) (by decide!) with
  | ⟨f, h⟩ =>
    ⟨f, (h (WalkerBrain.new false) ⟨rfl, rfl⟩).1, (h (WalkerBrain.new true) ⟨rfl, rfl⟩).1,
      (h (WalkerBrain.new false) ⟨rfl, rfl⟩).2⟩

/-! ## Scans shorter than 360 samples -/

/-- C5, as stated, fails: a scan of 100 samples with 0.5 at index 10 is taken
without any error, the flag is set to true from it and the next tick turns;
a scan of 359 samples of 5.0 is taken without any error as well and sets
the flag to false. -/
theorem check_obstacle_accepts_short_scan :
    (spike 100 10 (Fp.fin (1/2))).length = 100 ∧
    (WalkerBrain.new false).check_obstacle (spike 100 10 (Fp.fin (1/2)))
      = .ok (WalkerBrain.new true) ∧
    (walk (WalkerBrain.new true)).2
      = { linear := ⟨Fp.zero, Fp.zero, Fp.zero⟩,
          angular := ⟨Fp.zero, Fp.zero, Fp.lit_0_1⟩ } ∧
    (List.replicate 359 (Fp.fin 5)).length = 359 ∧
    (WalkerBrain.new true).check_obstacle (List.replicate 359 (Fp.fin 5))
      = .ok (WalkerBrain.new false) := by
  decide!

/-- C5, amended: `check_obstacle` makes no length check and has no error result, so a
scan of fewer than 360 samples is evaluated like any other. With the
built-in configuration: if some sample at an index below 20 is at or below
the threshold, the call returns with the flag true; if the scan has 359
samples, every read is inside the vector and the call returns with the flag
true exactly when a sample at an index 0..19 or 341..358 is at or below the
threshold. -/
theorem check_obstacle_short_scan (b : WalkerBrain) (ranges : List Fp)
    (hb : builtin b) (_hlen : ranges.length < 360) :
    ((∃ j, j < 20 ∧ near b ranges j = true) →
      b.check_obstacle ranges = .ok { b with obstacle_in_front_ := true }) ∧
    (ranges.length = 359 →
      ∃ f : Bool, b.check_obstacle ranges = .ok { b with obstacle_in_front_ := f } ∧
        (f = true ↔ ∃ j, (j < 20 ∨ (340 < j ∧ j ≤ 358)) ∧ near b ranges j = true)) := by
  refine ⟨?_, ?_⟩
  · rintro ⟨j, hj, hn⟩
    exact check_hit_low b ranges j hb.2 hj hn
  · intro h
    exact check_total b ranges hb.2 (by omega)

/-- Witness for `check_obstacle_short_scan`: a scan of 100 samples with 0.5 at index 10,
and a scan of 359 samples of 5.0. -/
theorem check_obstacle_short_scan_witness :
    (WalkerBrain.new false).check_obstacle (spike 100 10 (Fp.fin (1/2)))
      = .ok (WalkerBrain.new true) ∧
    (∃ f : Bool, (WalkerBrain.new false).check_obstacle (List.replicate 359 (Fp.fin 5))
      = .ok (WalkerBrain.new f)) :=
  ⟨(check_obstacle_short_scan (WalkerBrain.new false) (spike 100 10 (Fp.fin (1/2)))
      ⟨rfl, rfl⟩ (by decide!)).1 ⟨10, by decide, by decide!⟩,
   match (check_obstacle_short_scan (WalkerBrain.new false) (List.replicate 359 (Fp.fin 5))
      ⟨rfl, rfl⟩ (by decide!)).2 (by decide!) with
   | ⟨f, h, _⟩ => ⟨f, h⟩⟩

/-! ## The motion policy -/

/-- C3: the command published by a control tick is a function of the flag, the
speed and the turn rate: with the flag true it is angular.z = turn rate
and every other component 0, with the flag false it is linear.x = speed and
every other component 0. The controller state is unchanged. -/
theorem walk_command (b : WalkerBrain) :
    walk b = (b,
      if b.obstacle_in_front_ = true then
        { linear := ⟨Fp.zero, Fp.zero, Fp.zero⟩, angular := ⟨Fp.zero, Fp.zero, b.angle⟩ }
      else
        { linear := ⟨b.speed, Fp.zero, Fp.zero⟩, angular := ⟨Fp.zero, Fp.zero, Fp.zero⟩ }) := by
  cases h : b.obstacle_in_front_ <;>
    simp [walk, WalkerBrain.move, WalkerBrain.turn, WalkerBrain.move_forward,
      Twist.fresh, h]

/-- C4 fails on the code: neither constructor assigns `obstacle_in_front_`, so a
new brain whose storage held a non-zero byte there has the flag true and the
first tick publishes the turning command, through either constructor. -/
theorem new_brain_flag_is_stale :
    (WalkerBrain.new true).obstacle_in_front_ = true ∧
    (walk (WalkerBrain.new true)).2
      = { linear := ⟨Fp.zero, Fp.zero, Fp.zero⟩,
          angular := ⟨Fp.zero, Fp.zero, Fp.lit_0_1⟩ } ∧
    (WalkerBrain.new2 true (Fp.fin (1/2)) (Fp.fin (1/4))).obstacle_in_front_ = true ∧
    (walk (WalkerBrain.new2 true (Fp.fin (1/2)) (Fp.fin (1/4)))).2
      = { linear := ⟨Fp.zero, Fp.zero, Fp.zero⟩,
          angular := ⟨Fp.zero, Fp.zero, Fp.fin (1/4)⟩ } := by
  decide!

/-- C6: when the configured speed and turn rate are both non-zero, the command
published by a control tick has exactly one of linear.x and angular.z
non-zero, and the vector holding the other one is zero in every component. -/
theorem walk_exactly_one_nonzero (b : WalkerBrain)
    (hs : b.speed ≠ Fp.zero) (ha : b.angle ≠ Fp.zero) :
    ((walk b).2.linear.x ≠ Fp.zero ∧
        (walk b).2.angular = ⟨Fp.zero, Fp.zero, Fp.zero⟩) ∨
    ((walk b).2.linear = ⟨Fp.zero, Fp.zero, Fp.zero⟩ ∧
        (walk b).2.angular.z ≠ Fp.zero) := by
  rw [walk_eq]
  cases h : b.obstacle_in_front_
  · left; simp [hs]
  · right; simp [ha]

/-- Witness for `walk_exactly_one_nonzero`: the default-constructed brain. -/
theorem walk_exactly_one_nonzero_witness :
    ((walk (WalkerBrain.new false)).2.linear.x ≠ Fp.zero ∧
        (walk (WalkerBrain.new false)).2.angular = ⟨Fp.zero, Fp.zero, Fp.zero⟩) ∨
    ((walk (WalkerBrain.new false)).2.linear = ⟨Fp.zero, Fp.zero, Fp.zero⟩ ∧
        (walk (WalkerBrain.new false)).2.angular.z ≠ Fp.zero) :=
  walk_exactly_one_nonzero (WalkerBrain.new false) (by decide!) (by decide!)

/-- C10, as stated, fails in its last part: with the flag true and turn rate 0
(a brain from `WalkerBrain(0.1, 0.0)`), an input with linear.x = 1 comes out with
linear.x = 1 and angular.z = 0, so not both are non-zero. -/
theorem move_turn_rate_zero :
    (WalkerBrain.new2 true Fp.lit_0_1 Fp.zero).obstacle_in_front_ = true ∧
    (⟨⟨Fp.fin 1, Fp.zero, Fp.zero⟩, ⟨Fp.zero, Fp.zero, Fp.zero⟩⟩ : Twist).linear.x
      ≠ Fp.zero ∧
    ((WalkerBrain.new2 true Fp.lit_0_1 Fp.zero).move
      ⟨⟨Fp.fin 1, Fp.zero, Fp.zero⟩, ⟨Fp.zero, Fp.zero, Fp.zero⟩⟩).2
      = ⟨⟨Fp.fin 1, Fp.zero, Fp.zero⟩, ⟨Fp.zero, Fp.zero, Fp.zero⟩⟩ ∧
    ¬ (((WalkerBrain.new2 true Fp.lit_0_1 Fp.zero).move
          ⟨⟨Fp.fin 1, Fp.zero, Fp.zero⟩, ⟨Fp.zero, Fp.zero, Fp.zero⟩⟩).2.linear.x
            ≠ Fp.zero ∧
        ((WalkerBrain.new2 true Fp.lit_0_1 Fp.zero).move
          ⟨⟨Fp.fin 1, Fp.zero, Fp.zero⟩, ⟨Fp.zero, Fp.zero, Fp.zero⟩⟩).2.angular.z
            ≠ Fp.zero) := by
  decide!

/-- C10, amended: `move` assigns exactly one component of its argument, angular.z
:= turn rate when the flag is true and linear.x := speed when it is false;
the other five components and the controller state (flag, speed, turn rate)
keep their incoming values. The component that is not assigned is not
reset: for an input with linear.x non-zero, the flag true and a non-zero turn
rate, the output has both linear.x and angular.z non-zero. -/
theorem move_frame (b : WalkerBrain) (m : Twist) :
    (b.move m).1 = b ∧
    (b.obstacle_in_front_ = true →
      (b.move m).2 = ⟨m.linear, ⟨m.angular.x, m.angular.y, b.angle⟩⟩) ∧
    (b.obstacle_in_front_ = false →
      (b.move m).2 = ⟨⟨b.speed, m.linear.y, m.linear.z⟩, m.angular⟩) ∧
    (b.obstacle_in_front_ = true → m.linear.x ≠ Fp.zero → b.angle ≠ Fp.zero →
      (b.move m).2.linear.x ≠ Fp.zero ∧ (b.move m).2.angular.z ≠ Fp.zero) := by
  cases h : b.obstacle_in_front_ <;>
    simp [WalkerBrain.move, WalkerBrain.turn, WalkerBrain.move_forward, h]
  intro h1 h2
  exact ⟨h1, h2⟩

/-- Witness for `move_frame`: the default brain in either flag state, input with
linear.x = 1. -/
theorem move_frame_witness :
    ((WalkerBrain.new true).move
        ⟨⟨Fp.fin 1, Fp.zero, Fp.zero⟩, ⟨Fp.zero, Fp.zero, Fp.zero⟩⟩).2
      = ⟨⟨Fp.fin 1, Fp.zero, Fp.zero⟩, ⟨Fp.zero, Fp.zero, Fp.lit_0_1⟩⟩ ∧
    ((WalkerBrain.new false).move
        ⟨⟨Fp.fin 1, Fp.zero, Fp.zero⟩, ⟨Fp.zero, Fp.zero, Fp.zero⟩⟩).2
      = ⟨⟨Fp.lit_0_1, Fp.zero, Fp.zero⟩, ⟨Fp.zero, Fp.zero, Fp.zero⟩⟩ ∧
    (((WalkerBrain.new true).move
        ⟨⟨Fp.fin 1, Fp.zero, Fp.zero⟩, ⟨Fp.zero, Fp.zero, Fp.zero⟩⟩).2.linear.x ≠ Fp.zero ∧
      ((WalkerBrain.new true).move
        ⟨⟨Fp.fin 1, Fp.zero, Fp.zero⟩, ⟨Fp.zero, Fp.zero, Fp.zero⟩⟩).2.angular.z ≠ Fp.zero) :=
  ⟨(move_frame (WalkerBrain.new true) _).2.1 rfl,
   (move_frame (WalkerBrain.new false) _).2.2.1 rfl,
   (move_frame (WalkerBrain.new true)
      ⟨⟨Fp.fin 1, Fp.zero, Fp.zero⟩, ⟨Fp.zero, Fp.zero, Fp.zero⟩⟩).2.2.2 rfl
      (by decide!) (by decide!)⟩

end Walker
